import Mathlib

/-!
Verification of the telemetry batching and transmission subsystem of
demo-node-app.

The embedding covers:
* `HttpBatchProcessor` from `monitoring/http-observability-setup.js` —
  the in-process buffer holding pending log / metric / trace records,
  flushing on a size threshold or on a single pending timer;
* `ObservabilityHttpClient` from `monitoring/http-transmission-client.js` —
  the transmission client with its embedded circuit breaker
  (`circuitBreakerOpen`, `failureCount`, `maxFailures`, the 300000 ms
  cooldown `setTimeout`).

Records are opaque payloads (a type parameter `α`); time is milliseconds
as `Nat`.  The network is an oracle: each send step takes a `Bool` saying
whether the HTTP POST would succeed, and reports in its outcome whether a
POST was actually attempted.  JavaScript timers are modelled explicitly:
the buffer's `this.timeout` field stores a handle that stays non-null
after firing until code nulls it, and the client's cooldown callback is a
recorded deadline fired by the event loop before any later send runs.
-/

/-- A batch snapshot handed to the transmission client: the three record
sequences copied out of the buffer at flush time
(`{ logs: [...this.logs], metrics: [...], traces: [...] }`). -/
structure Batch (α : Type) where
  logs : List α
  metrics : List α
  traces : List α
  deriving DecidableEq, Repr

/-- The stored `setTimeout` handle of the buffer: its scheduled firing time
and whether the callback has already run.  In the source, `this.timeout`
keeps the handle object — which is truthy even after the callback fired —
until a flush sets it back to `null`; the guard in `checkBatchSize` tests
only presence, not whether the timer already fired. -/
structure TimerHandle where
  deadline : Nat
  fired : Bool
  deriving DecidableEq, Repr

/-- State of `HttpBatchProcessor`: the three record arrays, the configured
`batchSize` (config `HTTP_BATCH_SIZE`, default 10) and `batchTimeout`
(config `HTTP_BATCH_TIMEOUT`, default 5000 ms), and the pending-flush
timer handle (or `none` for `null`). -/
structure HttpBatchProcessor (α : Type) where
  logs : List α
  metrics : List α
  traces : List α
  batchSize : Nat
  batchTimeout : Nat
  timeout : Option TimerHandle
  deriving DecidableEq, Repr

namespace HttpBatchProcessor

/-- The constructor: empty arrays, configured thresholds, no timer. -/
def new {α : Type} (batchSize batchTimeout : Nat) : HttpBatchProcessor α :=
  ⟨[], [], [], batchSize, batchTimeout, none⟩

/-- Combined buffered item count `logs.length + metrics.length + traces.length`. -/
def totalCount {α : Type} (s : HttpBatchProcessor α) : Nat :=
  s.logs.length + s.metrics.length + s.traces.length

/-- The buffer-local part of `flush()`: if all three arrays are empty,
return immediately (note: without touching `this.timeout`); otherwise
snapshot the three arrays into a `Batch`, clear them, null the timer, and
hand the batch out for sending.  The `await httpClient.sendBatch(batch)`
call is composed separately in `flush` below, since the buffer state does
not depend on the send's result. -/
def flushCore {α : Type} (s : HttpBatchProcessor α) :
    HttpBatchProcessor α × Option (Batch α) :=
  if s.logs.isEmpty ∧ s.metrics.isEmpty ∧ s.traces.isEmpty then
    (s, none)
  else
    ({ s with logs := [], metrics := [], traces := [], timeout := none },
     some ⟨s.logs, s.metrics, s.traces⟩)

/-- `checkBatchSize()`: flush when the combined count has reached
`batchSize`; otherwise start the flush timer if `this.timeout` is null
(the handle, fired or not, counts as present). -/
def checkBatchSize {α : Type} (s : HttpBatchProcessor α) (now : Nat) :
    HttpBatchProcessor α × Option (Batch α) :=
  if s.batchSize ≤ s.totalCount then
    flushCore s
  else if s.timeout.isNone then
    ({ s with timeout := some ⟨now + s.batchTimeout, false⟩ }, none)
  else
    (s, none)

/-- `addLog(log)`: push, then `checkBatchSize()`. -/
def addLog {α : Type} (s : HttpBatchProcessor α) (r : α) (now : Nat) :
    HttpBatchProcessor α × Option (Batch α) :=
  checkBatchSize { s with logs := s.logs ++ [r] } now

/-- `addMetric(metric)`: push, then `checkBatchSize()`. -/
def addMetric {α : Type} (s : HttpBatchProcessor α) (r : α) (now : Nat) :
    HttpBatchProcessor α × Option (Batch α) :=
  checkBatchSize { s with metrics := s.metrics ++ [r] } now

/-- `addTrace(traceItem)`: a single record is pushed, an array is spread
(`push(...traceItem)`) preserving its order; then one `checkBatchSize()`. -/
def addTrace {α : Type} (s : HttpBatchProcessor α) (item : α ⊕ List α)
    (now : Nat) : HttpBatchProcessor α × Option (Batch α) :=
  match item with
  | Sum.inl r => checkBatchSize { s with traces := s.traces ++ [r] } now
  | Sum.inr rs => checkBatchSize { s with traces := s.traces ++ rs } now

/-- The flush timer's callback firing at time `now`: it runs only if the
stored handle is this unfired timer scheduled for `now`; the handle is
marked fired (it stays non-null — only `flush` nulls it) and `flush` runs. -/
def timerFireStep {α : Type} (s : HttpBatchProcessor α) (now : Nat) :
    HttpBatchProcessor α × Option (Batch α) :=
  match s.timeout with
  | some tm =>
    if tm.fired = false ∧ tm.deadline = now then
      flushCore { s with timeout := some ⟨tm.deadline, true⟩ }
    else (s, none)
  | none => (s, none)

end HttpBatchProcessor

/-- One producer-side append operation on the buffer. -/
inductive BufOp (α : Type) where
  | addLog (r : α)
  | addMetric (r : α)
  | addTrace (item : α ⊕ List α)
  deriving DecidableEq, Repr

namespace BufOp

/-- Records an operation appends to the `logs` sequence. -/
def opLogs {α : Type} : BufOp α → List α
  | .addLog r => [r]
  | _ => []

/-- Records an operation appends to the `metrics` sequence. -/
def opMetrics {α : Type} : BufOp α → List α
  | .addMetric r => [r]
  | _ => []

/-- Records an operation appends to the `traces` sequence. -/
def opTraces {α : Type} : BufOp α → List α
  | .addTrace (Sum.inl r) => [r]
  | .addTrace (Sum.inr rs) => rs
  | _ => []

/-- Number of records an operation appends. -/
def opCount {α : Type} (o : BufOp α) : Nat :=
  (opLogs o).length + (opMetrics o).length + (opTraces o).length

end BufOp

namespace HttpBatchProcessor

/-- Dispatch one append operation at time `now`. -/
def applyOp {α : Type} (s : HttpBatchProcessor α) (o : BufOp α) (now : Nat) :
    HttpBatchProcessor α × Option (Batch α) :=
  match o with
  | .addLog r => s.addLog r now
  | .addMetric r => s.addMetric r now
  | .addTrace item => s.addTrace item now

/-- Run a sequence of timed append operations, collecting every batch the
buffer hands to the transmission client, in order. -/
def runOps {α : Type} (s : HttpBatchProcessor α) :
    List (BufOp α × Nat) → HttpBatchProcessor α × List (Batch α)
  | [] => (s, [])
  | (o, t) :: rest =>
    let step := applyOp s o t
    let tail := runOps step.1 rest
    (tail.1, step.2.toList ++ tail.2)

end HttpBatchProcessor

/-- All records a list of timed operations appends to `logs`, in order. -/
def allLogs {α : Type} : List (BufOp α × Nat) → List α
  | [] => []
  | p :: rest => p.1.opLogs ++ allLogs rest

/-- All records a list of timed operations appends to `metrics`, in order. -/
def allMetrics {α : Type} : List (BufOp α × Nat) → List α
  | [] => []
  | p :: rest => p.1.opMetrics ++ allMetrics rest

/-- All records a list of timed operations appends to `traces`, in order. -/
def allTraces {α : Type} : List (BufOp α × Nat) → List α
  | [] => []
  | p :: rest => p.1.opTraces ++ allTraces rest

/-- Total number of records a list of timed operations appends. -/
def opsCount {α : Type} (ops : List (BufOp α × Nat)) : Nat :=
  (allLogs ops).length + (allMetrics ops).length + (allTraces ops).length

/-- The logs carried by an optional batch. -/
def optLogs {α : Type} : Option (Batch α) → List α
  | none => []
  | some b => b.logs

/-- The metrics carried by an optional batch. -/
def optMetrics {α : Type} : Option (Batch α) → List α
  | none => []
  | some b => b.metrics

/-- The traces carried by an optional batch. -/
def optTraces {α : Type} : Option (Batch α) → List α
  | none => []
  | some b => b.traces

/-- The logs of a list of batches, concatenated in emission order. -/
def batchLogs {α : Type} : List (Batch α) → List α
  | [] => []
  | b :: rest => b.logs ++ batchLogs rest

/-- The metrics of a list of batches, concatenated in emission order. -/
def batchMetrics {α : Type} : List (Batch α) → List α
  | [] => []
  | b :: rest => b.metrics ++ batchMetrics rest

/-- The traces of a list of batches, concatenated in emission order. -/
def batchTraces {α : Type} : List (Batch α) → List α
  | [] => []
  | b :: rest => b.traces ++ batchTraces rest

/-- Circuit-breaker state of `ObservabilityHttpClient`
(`monitoring/http-transmission-client.js`).  `cooldownDeadline` models the
pending `setTimeout` scheduled in `handleFailure` when the breaker opens:
the time at which its callback (`circuitBreakerOpen = false;
failureCount = 0`) will run, or `none` when no cooldown timer is pending. -/
structure ObservabilityHttpClient where
  maxRetries : Nat
  retryDelay : Nat
  circuitBreakerOpen : Bool
  failureCount : Nat
  maxFailures : Nat
  lastFailureTime : Option Nat
  cooldownDeadline : Option Nat
  deriving DecidableEq, Repr

/-- Outcome of one client call: the boolean the promise resolves to,
whether an HTTP request was actually attempted on the wire, and the
client's state afterwards. -/
structure SendOutcome where
  result : Bool
  posted : Bool
  client : ObservabilityHttpClient
  deriving DecidableEq, Repr

namespace ObservabilityHttpClient

/-- The hard-coded cooldown of the circuit breaker: 300000 ms (5 minutes). -/
def cooldownMs : Nat := 300000

/-- The constructor: retry configuration fields (never read by any send
path), breaker closed, zero failures, threshold 5, no failure recorded,
no cooldown timer pending. -/
def new : ObservabilityHttpClient :=
  ⟨3, 1000, false, 0, 5, none, none⟩

/-- `handleFailure()`: increment `failureCount`, stamp `lastFailureTime`;
when the count reaches `maxFailures`, open the breaker and schedule the
cooldown callback for `now + 300000`. -/
def handleFailure (c : ObservabilityHttpClient) (now : Nat) :
    ObservabilityHttpClient :=
  let c1 : ObservabilityHttpClient :=
    { c with failureCount := c.failureCount + 1, lastFailureTime := some now }
  if c1.maxFailures ≤ c1.failureCount then
    { c1 with circuitBreakerOpen := true,
              cooldownDeadline := some (now + cooldownMs) }
  else c1

/-- `resetFailureCount()`: zero the counter and close the breaker. -/
def resetFailureCount (c : ObservabilityHttpClient) :
    ObservabilityHttpClient :=
  { c with failureCount := 0, circuitBreakerOpen := false }

/-- The event loop firing a due cooldown callback at time `now`: if a
cooldown timer is pending and its deadline has passed, the callback closes
the breaker and zeroes the counter; otherwise nothing happens. -/
def fireCooldown (c : ObservabilityHttpClient) (now : Nat) :
    ObservabilityHttpClient :=
  match c.cooldownDeadline with
  | some d =>
    if d ≤ now then
      { c with circuitBreakerOpen := false, failureCount := 0,
               cooldownDeadline := none }
    else c
  | none => c

/-- `sendBatch(batchData)`: a breaker-open call returns `false` with no
network attempt and no state change; otherwise exactly one POST is made,
a success resets the counter, a transport failure runs `handleFailure`. -/
def sendBatch (c : ObservabilityHttpClient) (now : Nat) (transportOk : Bool) :
    SendOutcome :=
  if c.circuitBreakerOpen then ⟨false, false, c⟩
  else if transportOk then ⟨true, true, c.resetFailureCount⟩
  else ⟨false, true, c.handleFailure now⟩

/-- `sendLogs(logs)`: same guard, success and failure handling as
`sendBatch`, on the logs endpoint. -/
def sendLogs (c : ObservabilityHttpClient) (now : Nat) (transportOk : Bool) :
    SendOutcome :=
  if c.circuitBreakerOpen then ⟨false, false, c⟩
  else if transportOk then ⟨true, true, c.resetFailureCount⟩
  else ⟨false, true, c.handleFailure now⟩

/-- `sendMetrics(metrics)`: same guard, success and failure handling as
`sendBatch`, on the metrics endpoint. -/
def sendMetrics (c : ObservabilityHttpClient) (now : Nat) (transportOk : Bool) :
    SendOutcome :=
  if c.circuitBreakerOpen then ⟨false, false, c⟩
  else if transportOk then ⟨true, true, c.resetFailureCount⟩
  else ⟨false, true, c.handleFailure now⟩

/-- `sendTraces(traces)`: same guard, success and failure handling as
`sendBatch`, on the traces endpoint. -/
def sendTraces (c : ObservabilityHttpClient) (now : Nat) (transportOk : Bool) :
    SendOutcome :=
  if c.circuitBreakerOpen then ⟨false, false, c⟩
  else if transportOk then ⟨true, true, c.resetFailureCount⟩
  else ⟨false, true, c.handleFailure now⟩

/-- `sendHealthStatus(status)`: no breaker guard — the POST is always
attempted; a success returns `true`, a failure is caught and returns
`false`; neither path touches any circuit-breaker field. -/
def sendHealthStatus (c : ObservabilityHttpClient) (transportOk : Bool) :
    SendOutcome :=
  ⟨transportOk, true, c⟩

/-- A `sendBatch` call arriving at wall time `now`: the event loop runs
any due cooldown callback before the send executes. -/
def sendBatchAt (c : ObservabilityHttpClient) (now : Nat)
    (transportOk : Bool) : SendOutcome :=
  sendBatch (fireCooldown c now) now transportOk

/-- Run a sequence of timed `sendBatch` calls, each with its transport
oracle, collecting the outcomes. -/
def runBatchSends (c : ObservabilityHttpClient) :
    List (Nat × Bool) → ObservabilityHttpClient × List SendOutcome
  | [] => (c, [])
  | (t, ok) :: rest =>
    let out := sendBatchAt c t ok
    let tail := runBatchSends out.client rest
    (tail.1, out :: tail.2)

end ObservabilityHttpClient

/-- Outcome of one `HttpBatchProcessor.flush()` composed with the client:
the buffer afterwards, the client afterwards, how many times the flush
invoked `httpClient.sendBatch`, and whether any HTTP POST was attempted. -/
structure FlushOutcome (α : Type) where
  buf : HttpBatchProcessor α
  client : ObservabilityHttpClient
  sendCalls : Nat
  posted : Bool
  deriving DecidableEq, Repr

/-- `flush()` composed with the transmission client: an empty buffer
returns at once (no `sendBatch` call); otherwise the arrays are snapshot
and cleared, the timer nulled, and `sendBatch` is invoked exactly once on
the snapshot — its rejection would be caught and only logged, so the flush
returns normally to its caller in every case. -/
def HttpBatchProcessor.flush {α : Type} (s : HttpBatchProcessor α)
    (c : ObservabilityHttpClient) (now : Nat) (transportOk : Bool) :
    FlushOutcome α :=
  match s.flushCore with
  | (s1, none) => ⟨s1, c, 0, false⟩
  | (s1, some _) =>
    let out := c.sendBatch now transportOk
    ⟨s1, out.client, 1, out.posted⟩

namespace HttpBatchProcessor

lemma flushCore_empty {α : Type} (s : HttpBatchProcessor α)
    (h : s.logs.isEmpty ∧ s.metrics.isEmpty ∧ s.traces.isEmpty) :
    s.flushCore = (s, none) := by
  simp [flushCore, h]

lemma flushCore_nonempty {α : Type} (s : HttpBatchProcessor α)
    (h : ¬ (s.logs.isEmpty ∧ s.metrics.isEmpty ∧ s.traces.isEmpty)) :
    s.flushCore =
      (⟨[], [], [], s.batchSize, s.batchTimeout, none⟩,
       some ⟨s.logs, s.metrics, s.traces⟩) := by
  simp only [flushCore, if_neg h]

lemma not_empty_of_count_pos {α : Type} (s : HttpBatchProcessor α)
    (h : 0 < s.totalCount) :
    ¬ (s.logs.isEmpty ∧ s.metrics.isEmpty ∧ s.traces.isEmpty) := by
  rintro ⟨h1, h2, h3⟩
  rw [List.isEmpty_iff] at h1 h2 h3
  simp [totalCount, h1, h2, h3] at h

lemma flushCore_of_count_pos {α : Type} (s : HttpBatchProcessor α)
    (h : 0 < s.totalCount) :
    s.flushCore =
      (⟨[], [], [], s.batchSize, s.batchTimeout, none⟩,
       some ⟨s.logs, s.metrics, s.traces⟩) :=
  flushCore_nonempty s (not_empty_of_count_pos s h)

lemma checkBatchSize_flush {α : Type} (s : HttpBatchProcessor α) (now : Nat)
    (h : s.batchSize ≤ s.totalCount) :
    s.checkBatchSize now = s.flushCore := by
  simp [checkBatchSize, h]

lemma checkBatchSize_startTimer {α : Type} (s : HttpBatchProcessor α)
    (now : Nat) (h1 : s.totalCount < s.batchSize) (h2 : s.timeout = none) :
    s.checkBatchSize now =
      ({ s with timeout := some ⟨now + s.batchTimeout, false⟩ }, none) := by
  simp [checkBatchSize, Nat.not_le.mpr h1, h2]

lemma checkBatchSize_pending {α : Type} (s : HttpBatchProcessor α)
    (now : Nat) (h1 : s.totalCount < s.batchSize)
    (h2 : s.timeout.isSome = true) :
    s.checkBatchSize now = (s, none) := by
  have h3 : s.timeout.isNone = false := by
    cases ht : s.timeout <;> simp [ht] at h2 ⊢
  simp [checkBatchSize, Nat.not_le.mpr h1, h3]

/-- One append on a below-threshold buffer with a pending timer handle:
the records are appended in order, no flush is emitted, and the timer
field (its deadline included) is untouched — a second timer is never
started while the handle is present. -/
lemma applyOp_pending {α : Type} (s : HttpBatchProcessor α) (o : BufOp α)
    (t : Nat) (h1 : s.timeout.isSome = true)
    (h2 : s.totalCount + o.opCount < s.batchSize) :
    s.applyOp o t =
      ({ s with logs := s.logs ++ o.opLogs, metrics := s.metrics ++ o.opMetrics,
                traces := s.traces ++ o.opTraces }, none) := by
  cases o with
  | addLog r =>
    have hc : ({ s with logs := s.logs ++ [r] } :
        HttpBatchProcessor α).totalCount <
        ({ s with logs := s.logs ++ [r] } : HttpBatchProcessor α).batchSize := by
      simp [totalCount, BufOp.opCount, BufOp.opLogs, BufOp.opMetrics,
        BufOp.opTraces] at h2 ⊢
      omega
    rw [applyOp, addLog, checkBatchSize_pending _ t hc h1]
    simp [BufOp.opLogs, BufOp.opMetrics, BufOp.opTraces]
  | addMetric r =>
    have hc : ({ s with metrics := s.metrics ++ [r] } :
        HttpBatchProcessor α).totalCount <
        ({ s with metrics := s.metrics ++ [r] } : HttpBatchProcessor α).batchSize := by
      simp [totalCount, BufOp.opCount, BufOp.opLogs, BufOp.opMetrics,
        BufOp.opTraces] at h2 ⊢
      omega
    rw [applyOp, addMetric, checkBatchSize_pending _ t hc h1]
    simp [BufOp.opLogs, BufOp.opMetrics, BufOp.opTraces]
  | addTrace item =>
    cases item with
    | inl r =>
      have hc : ({ s with traces := s.traces ++ [r] } :
          HttpBatchProcessor α).totalCount <
          ({ s with traces := s.traces ++ [r] } : HttpBatchProcessor α).batchSize := by
        simp [totalCount, BufOp.opCount, BufOp.opLogs, BufOp.opMetrics,
          BufOp.opTraces] at h2 ⊢
        omega
      rw [applyOp, addTrace, checkBatchSize_pending _ t hc h1]
      simp [BufOp.opLogs, BufOp.opMetrics, BufOp.opTraces]
    | inr rs =>
      have hc : ({ s with traces := s.traces ++ rs } :
          HttpBatchProcessor α).totalCount <
          ({ s with traces := s.traces ++ rs } : HttpBatchProcessor α).batchSize := by
        simp [totalCount, BufOp.opCount, BufOp.opLogs, BufOp.opMetrics,
          BufOp.opTraces] at h2 ⊢
        omega
      rw [applyOp, addTrace, checkBatchSize_pending _ t hc h1]
      simp [BufOp.opLogs, BufOp.opMetrics, BufOp.opTraces]

/-- One append that takes the combined count to (or past) the threshold:
the flush happens inside the same operation, its batch holds the previous
buffer contents with the new records appended in order, and the buffer is
left with all three sequences empty and no timer. -/
lemma applyOp_flush {α : Type} (s : HttpBatchProcessor α) (o : BufOp α)
    (t : Nat) (hB : 1 ≤ s.batchSize)
    (hge : s.batchSize ≤ s.totalCount + o.opCount) :
    s.applyOp o t =
      (⟨[], [], [], s.batchSize, s.batchTimeout, none⟩,
       some ⟨s.logs ++ o.opLogs, s.metrics ++ o.opMetrics,
             s.traces ++ o.opTraces⟩) := by
  cases o with
  | addLog r =>
    have hge2 : ({ s with logs := s.logs ++ [r] } :
        HttpBatchProcessor α).batchSize ≤
        ({ s with logs := s.logs ++ [r] } : HttpBatchProcessor α).totalCount := by
      simp [totalCount, BufOp.opCount, BufOp.opLogs, BufOp.opMetrics,
        BufOp.opTraces] at hge ⊢
      omega
    rw [applyOp, addLog, checkBatchSize_flush _ t hge2,
      flushCore_of_count_pos _ (Nat.lt_of_lt_of_le hB hge2)]
    simp [BufOp.opLogs, BufOp.opMetrics, BufOp.opTraces]
  | addMetric r =>
    have hge2 : ({ s with metrics := s.metrics ++ [r] } :
        HttpBatchProcessor α).batchSize ≤
        ({ s with metrics := s.metrics ++ [r] } : HttpBatchProcessor α).totalCount := by
      simp [totalCount, BufOp.opCount, BufOp.opLogs, BufOp.opMetrics,
        BufOp.opTraces] at hge ⊢
      omega
    rw [applyOp, addMetric, checkBatchSize_flush _ t hge2,
      flushCore_of_count_pos _ (Nat.lt_of_lt_of_le hB hge2)]
    simp [BufOp.opLogs, BufOp.opMetrics, BufOp.opTraces]
  | addTrace item =>
    cases item with
    | inl r =>
      have hge2 : ({ s with traces := s.traces ++ [r] } :
          HttpBatchProcessor α).batchSize ≤
          ({ s with traces := s.traces ++ [r] } : HttpBatchProcessor α).totalCount := by
        simp [totalCount, BufOp.opCount, BufOp.opLogs, BufOp.opMetrics,
          BufOp.opTraces] at hge ⊢
        omega
      rw [applyOp, addTrace, checkBatchSize_flush _ t hge2,
        flushCore_of_count_pos _ (Nat.lt_of_lt_of_le hB hge2)]
      simp [BufOp.opLogs, BufOp.opMetrics, BufOp.opTraces]
    | inr rs =>
      have hge2 : ({ s with traces := s.traces ++ rs } :
          HttpBatchProcessor α).batchSize ≤
          ({ s with traces := s.traces ++ rs } : HttpBatchProcessor α).totalCount := by
        simp [totalCount, BufOp.opCount, BufOp.opLogs, BufOp.opMetrics,
          BufOp.opTraces] at hge ⊢
        omega
      rw [applyOp, addTrace, checkBatchSize_flush _ t hge2,
        flushCore_of_count_pos _ (Nat.lt_of_lt_of_le hB hge2)]
      simp [BufOp.opLogs, BufOp.opMetrics, BufOp.opTraces]

/-- `checkBatchSize` conserves the buffered records: whatever batch it
emits, followed by what remains buffered, is exactly what was buffered
before, and the configuration fields are untouched. -/
lemma checkBatchSize_conserve {α : Type} (s : HttpBatchProcessor α)
    (now : Nat) :
    optLogs (s.checkBatchSize now).2 ++ (s.checkBatchSize now).1.logs = s.logs ∧
    optMetrics (s.checkBatchSize now).2 ++ (s.checkBatchSize now).1.metrics = s.metrics ∧
    optTraces (s.checkBatchSize now).2 ++ (s.checkBatchSize now).1.traces = s.traces ∧
    (s.checkBatchSize now).1.batchSize = s.batchSize ∧
    (s.checkBatchSize now).1.batchTimeout = s.batchTimeout := by
  by_cases hf : s.batchSize ≤ s.totalCount
  · rw [checkBatchSize_flush _ now hf]
    by_cases he : s.logs.isEmpty ∧ s.metrics.isEmpty ∧ s.traces.isEmpty
    · rw [flushCore_empty _ he]
      simp [optLogs, optMetrics, optTraces]
    · rw [flushCore_nonempty _ he]
      simp [optLogs, optMetrics, optTraces]
  · by_cases ht : s.timeout = none
    · rw [checkBatchSize_startTimer _ now (Nat.not_le.mp hf) ht]
      simp [optLogs, optMetrics, optTraces]
    · rw [checkBatchSize_pending _ now (Nat.not_le.mp hf)
        (Option.isSome_iff_ne_none.mpr ht)]
      simp [optLogs, optMetrics, optTraces]

/-- One append conserves records: the emitted batch (if any) followed by
the residual buffer equals the old buffer with the new records appended. -/
lemma applyOp_conserve {α : Type} (s : HttpBatchProcessor α) (o : BufOp α)
    (t : Nat) :
    optLogs (s.applyOp o t).2 ++ (s.applyOp o t).1.logs = s.logs ++ o.opLogs ∧
    optMetrics (s.applyOp o t).2 ++ (s.applyOp o t).1.metrics = s.metrics ++ o.opMetrics ∧
    optTraces (s.applyOp o t).2 ++ (s.applyOp o t).1.traces = s.traces ++ o.opTraces := by
  cases o with
  | addLog r =>
    have h := checkBatchSize_conserve ({ s with logs := s.logs ++ [r] }) t
    rw [applyOp, addLog]
    simpa [BufOp.opLogs, BufOp.opMetrics, BufOp.opTraces] using
      ⟨h.1, h.2.1, h.2.2.1⟩
  | addMetric r =>
    have h := checkBatchSize_conserve ({ s with metrics := s.metrics ++ [r] }) t
    rw [applyOp, addMetric]
    simpa [BufOp.opLogs, BufOp.opMetrics, BufOp.opTraces] using
      ⟨h.1, h.2.1, h.2.2.1⟩
  | addTrace item =>
    cases item with
    | inl r =>
      have h := checkBatchSize_conserve ({ s with traces := s.traces ++ [r] }) t
      rw [applyOp, addTrace]
      simpa [BufOp.opLogs, BufOp.opMetrics, BufOp.opTraces] using
        ⟨h.1, h.2.1, h.2.2.1⟩
    | inr rs =>
      have h := checkBatchSize_conserve ({ s with traces := s.traces ++ rs }) t
      rw [applyOp, addTrace]
      simpa [BufOp.opLogs, BufOp.opMetrics, BufOp.opTraces] using
        ⟨h.1, h.2.1, h.2.2.1⟩

end HttpBatchProcessor

lemma batchLogs_append {α : Type} (l1 l2 : List (Batch α)) :
    batchLogs (l1 ++ l2) = batchLogs l1 ++ batchLogs l2 := by
  induction l1 with
  | nil => simp [batchLogs]
  | cons b rest ih => simp [batchLogs, ih]

lemma batchMetrics_append {α : Type} (l1 l2 : List (Batch α)) :
    batchMetrics (l1 ++ l2) = batchMetrics l1 ++ batchMetrics l2 := by
  induction l1 with
  | nil => simp [batchMetrics]
  | cons b rest ih => simp [batchMetrics, ih]

lemma batchTraces_append {α : Type} (l1 l2 : List (Batch α)) :
    batchTraces (l1 ++ l2) = batchTraces l1 ++ batchTraces l2 := by
  induction l1 with
  | nil => simp [batchTraces]
  | cons b rest ih => simp [batchTraces, ih]

lemma batchLogs_toList {α : Type} (ob : Option (Batch α)) :
    batchLogs ob.toList = optLogs ob := by
  cases ob <;> simp [batchLogs, optLogs]

lemma batchMetrics_toList {α : Type} (ob : Option (Batch α)) :
    batchMetrics ob.toList = optMetrics ob := by
  cases ob <;> simp [batchMetrics, optMetrics]

lemma batchTraces_toList {α : Type} (ob : Option (Batch α)) :
    batchTraces ob.toList = optTraces ob := by
  cases ob <;> simp [batchTraces, optTraces]

namespace HttpBatchProcessor

lemma checkBatchSize_below_snd {α : Type} (s : HttpBatchProcessor α)
    (now : Nat) (h : s.totalCount < s.batchSize) :
    (s.checkBatchSize now).2 = none ∧
    (s.checkBatchSize now).1.logs = s.logs ∧
    (s.checkBatchSize now).1.metrics = s.metrics ∧
    (s.checkBatchSize now).1.traces = s.traces := by
  by_cases ht : s.timeout = none
  · rw [checkBatchSize_startTimer _ now h ht]
    simp
  · rw [checkBatchSize_pending _ now h (Option.isSome_iff_ne_none.mpr ht)]
    simp

/-- One append that leaves the combined count below the threshold: no
flush is emitted and the records sit in the buffer, appended in order. -/
lemma applyOp_below {α : Type} (s : HttpBatchProcessor α) (o : BufOp α)
    (t : Nat) (h : s.totalCount + o.opCount < s.batchSize) :
    (s.applyOp o t).2 = none ∧
    (s.applyOp o t).1.logs = s.logs ++ o.opLogs ∧
    (s.applyOp o t).1.metrics = s.metrics ++ o.opMetrics ∧
    (s.applyOp o t).1.traces = s.traces ++ o.opTraces := by
  cases o with
  | addLog r =>
    have h2 := checkBatchSize_below_snd ({ s with logs := s.logs ++ [r] }) t
      (by
        simp [totalCount, BufOp.opCount, BufOp.opLogs, BufOp.opMetrics,
          BufOp.opTraces] at h ⊢
        omega)
    rw [applyOp, addLog]
    simpa [BufOp.opLogs, BufOp.opMetrics, BufOp.opTraces] using h2
  | addMetric r =>
    have h2 := checkBatchSize_below_snd ({ s with metrics := s.metrics ++ [r] }) t
      (by
        simp [totalCount, BufOp.opCount, BufOp.opLogs, BufOp.opMetrics,
          BufOp.opTraces] at h ⊢
        omega)
    rw [applyOp, addMetric]
    simpa [BufOp.opLogs, BufOp.opMetrics, BufOp.opTraces] using h2
  | addTrace item =>
    cases item with
    | inl r =>
      have h2 := checkBatchSize_below_snd ({ s with traces := s.traces ++ [r] }) t
        (by
          simp [totalCount, BufOp.opCount, BufOp.opLogs, BufOp.opMetrics,
            BufOp.opTraces] at h ⊢
          omega)
      rw [applyOp, addTrace]
      simpa [BufOp.opLogs, BufOp.opMetrics, BufOp.opTraces] using h2
    | inr rs =>
      have h2 := checkBatchSize_below_snd ({ s with traces := s.traces ++ rs }) t
        (by
          simp [totalCount, BufOp.opCount, BufOp.opLogs, BufOp.opMetrics,
            BufOp.opTraces] at h ⊢
          omega)
      rw [applyOp, addTrace]
      simpa [BufOp.opLogs, BufOp.opMetrics, BufOp.opTraces] using h2

end HttpBatchProcessor

/-- Run-level conservation: over any sequence of appends, the batches
handed out, in order, followed by the residual buffer, are exactly the
appended records, per sequence and in insertion order. -/
lemma runOps_conserve {α : Type} (ops : List (BufOp α × Nat)) :
    ∀ s : HttpBatchProcessor α,
    batchLogs (HttpBatchProcessor.runOps s ops).2 ++
      (HttpBatchProcessor.runOps s ops).1.logs = s.logs ++ allLogs ops ∧
    batchMetrics (HttpBatchProcessor.runOps s ops).2 ++
      (HttpBatchProcessor.runOps s ops).1.metrics = s.metrics ++ allMetrics ops ∧
    batchTraces (HttpBatchProcessor.runOps s ops).2 ++
      (HttpBatchProcessor.runOps s ops).1.traces = s.traces ++ allTraces ops := by
  induction ops with
  | nil =>
    intro s
    simp [HttpBatchProcessor.runOps, batchLogs, batchMetrics, batchTraces,
      allLogs, allMetrics, allTraces]
  | cons p rest ih =>
    intro s
    obtain ⟨o, t⟩ := p
    obtain ⟨c1, c2, c3⟩ := HttpBatchProcessor.applyOp_conserve s o t
    obtain ⟨i1, i2, i3⟩ := ih (s.applyOp o t).1
    refine ⟨?_, ?_, ?_⟩
    · simp only [HttpBatchProcessor.runOps, batchLogs_append, batchLogs_toList,
        allLogs, List.append_assoc]
      rw [i1, ← List.append_assoc, c1, List.append_assoc]
    · simp only [HttpBatchProcessor.runOps, batchMetrics_append,
        batchMetrics_toList, allMetrics, List.append_assoc]
      rw [i2, ← List.append_assoc, c2, List.append_assoc]
    · simp only [HttpBatchProcessor.runOps, batchTraces_append,
        batchTraces_toList, allTraces, List.append_assoc]
      rw [i3, ← List.append_assoc, c3, List.append_assoc]

open HttpBatchProcessor ObservabilityHttpClient in
/-- C5: every successful delivery (sendBatch, sendLogs, sendMetrics, or
sendTraces returning success) while the circuit is Closed resets the
consecutive-failure counter to 0, even if the counter was non-zero from
prior isolated failures. -/
theorem success_while_closed_resets_counter (c : ObservabilityHttpClient)
    (now : Nat) (hO : c.circuitBreakerOpen = false) :
    (c.sendBatch now true).result = true ∧
    (c.sendBatch now true).client.failureCount = 0 ∧
    (c.sendLogs now true).result = true ∧
    (c.sendLogs now true).client.failureCount = 0 ∧
    (c.sendMetrics now true).result = true ∧
    (c.sendMetrics now true).client.failureCount = 0 ∧
    (c.sendTraces now true).result = true ∧
    (c.sendTraces now true).client.failureCount = 0 := by
  simp [ObservabilityHttpClient.sendBatch, ObservabilityHttpClient.sendLogs,
    ObservabilityHttpClient.sendMetrics, ObservabilityHttpClient.sendTraces,
    ObservabilityHttpClient.resetFailureCount, hO]

/-- Witness for C5 at a concrete client with three prior isolated failures. -/
theorem success_while_closed_resets_counter_witness :
    (⟨3, 1000, false, 3, 5, some 42, none⟩ :
        ObservabilityHttpClient).circuitBreakerOpen = false ∧
    (((⟨3, 1000, false, 3, 5, some 42, none⟩ :
        ObservabilityHttpClient).sendBatch 100 true).result = true ∧
      ((⟨3, 1000, false, 3, 5, some 42, none⟩ :
        ObservabilityHttpClient).sendBatch 100 true).client.failureCount = 0 ∧
      ((⟨3, 1000, false, 3, 5, some 42, none⟩ :
        ObservabilityHttpClient).sendLogs 100 true).result = true ∧
      ((⟨3, 1000, false, 3, 5, some 42, none⟩ :
        ObservabilityHttpClient).sendLogs 100 true).client.failureCount = 0 ∧
      ((⟨3, 1000, false, 3, 5, some 42, none⟩ :
        ObservabilityHttpClient).sendMetrics 100 true).result = true ∧
      ((⟨3, 1000, false, 3, 5, some 42, none⟩ :
        ObservabilityHttpClient).sendMetrics 100 true).client.failureCount = 0 ∧
      ((⟨3, 1000, false, 3, 5, some 42, none⟩ :
        ObservabilityHttpClient).sendTraces 100 true).result = true ∧
      ((⟨3, 1000, false, 3, 5, some 42, none⟩ :
        ObservabilityHttpClient).sendTraces 100 true).client.failureCount = 0) :=
  ⟨by decide,
   success_while_closed_resets_counter ⟨3, 1000, false, 3, 5, some 42, none⟩
     100 (by decide)⟩

/-- C6: a flush invoked when all three sequences are empty performs no
network call (no sendBatch invocation, no POST) and makes no change to the
buffered sequences — the buffer and client states are returned untouched. -/
theorem empty_flush_is_noop {α : Type} (s : HttpBatchProcessor α)
    (c : ObservabilityHttpClient) (now : Nat) (transportOk : Bool)
    (hl : s.logs = []) (hm : s.metrics = []) (ht : s.traces = []) :
    s.flush c now transportOk = ⟨s, c, 0, false⟩ := by
  rw [HttpBatchProcessor.flush,
    HttpBatchProcessor.flushCore_empty s (by simp [hl, hm, ht])]

/-- Witness for C6 at a concrete empty buffer. -/
theorem empty_flush_is_noop_witness :
    (⟨[], [], [], 10, 5000, some ⟨7, false⟩⟩ :
        HttpBatchProcessor Nat).logs = [] ∧
    (⟨[], [], [], 10, 5000, some ⟨7, false⟩⟩ :
        HttpBatchProcessor Nat).metrics = [] ∧
    (⟨[], [], [], 10, 5000, some ⟨7, false⟩⟩ :
        HttpBatchProcessor Nat).traces = [] ∧
    (⟨[], [], [], 10, 5000, some ⟨7, false⟩⟩ :
        HttpBatchProcessor Nat).flush ObservabilityHttpClient.new 3 false =
      ⟨⟨[], [], [], 10, 5000, some ⟨7, false⟩⟩,
        ObservabilityHttpClient.new, 0, false⟩ :=
  ⟨by decide, by decide, by decide,
   empty_flush_is_noop ⟨[], [], [], 10, 5000, some ⟨7, false⟩⟩
     ObservabilityHttpClient.new 3 false rfl rfl rfl⟩

/-- C9: sendHealthStatus is not guarded by the circuit breaker: for every
client state — the breaker-open ones included — the POST is attempted, the
call returns the transport outcome as a value (a failure is swallowed,
never thrown), and the client state, hence every circuit-breaker field, is
returned unchanged. -/
theorem sendHealthStatus_bypasses_breaker (c : ObservabilityHttpClient)
    (transportOk : Bool) :
    (c.sendHealthStatus transportOk).posted = true ∧
    (c.sendHealthStatus transportOk).result = transportOk ∧
    (c.sendHealthStatus transportOk).client = c := by
  refine ⟨rfl, rfl, rfl⟩

/-- C10: a single addTrace call with a sequence of k records appends all k
records in order before the single threshold check, so the combined count
can exceed maxBatchSize and the flushed batch then contains more than
maxBatchSize records — flushed batches are not capped at maxBatchSize. -/
theorem addTrace_bulk_flush_uncapped {α : Type} (s : HttpBatchProcessor α)
    (rs : List α) (t : Nat) (hwf : s.totalCount < s.batchSize)
    (hcross : s.batchSize < s.totalCount + rs.length) :
    s.applyOp (BufOp.addTrace (Sum.inr rs)) t =
      (⟨[], [], [], s.batchSize, s.batchTimeout, none⟩,
       some ⟨s.logs, s.metrics, s.traces ++ rs⟩) ∧
    s.batchSize <
      s.logs.length + s.metrics.length + (s.traces ++ rs).length := by
  constructor
  · have h := HttpBatchProcessor.applyOp_flush s (BufOp.addTrace (Sum.inr rs)) t
      (by omega)
      (by
        simp [BufOp.opCount, BufOp.opLogs, BufOp.opMetrics, BufOp.opTraces]
        omega)
    simpa [BufOp.opLogs, BufOp.opMetrics, BufOp.opTraces] using h
  · simp only [List.length_append]
    simp [HttpBatchProcessor.totalCount] at hcross
    omega

/-- Witness for C10: threshold 2, five records in one addTrace call. -/
theorem addTrace_bulk_flush_uncapped_witness :
    (⟨[9], [], [], 2, 5000, some ⟨10, false⟩⟩ :
        HttpBatchProcessor Nat).totalCount <
      (⟨[9], [], [], 2, 5000, some ⟨10, false⟩⟩ :
        HttpBatchProcessor Nat).batchSize ∧
    (⟨[9], [], [], 2, 5000, some ⟨10, false⟩⟩ :
        HttpBatchProcessor Nat).batchSize <
      (⟨[9], [], [], 2, 5000, some ⟨10, false⟩⟩ :
        HttpBatchProcessor Nat).totalCount + [1, 2, 3, 4, 5].length ∧
    ((⟨[9], [], [], 2, 5000, some ⟨10, false⟩⟩ :
        HttpBatchProcessor Nat).applyOp
          (BufOp.addTrace (Sum.inr [1, 2, 3, 4, 5])) 0 =
        (⟨[], [], [], 2, 5000, none⟩, some ⟨[9], [], [1, 2, 3, 4, 5]⟩) ∧
      (⟨[9], [], [], 2, 5000, some ⟨10, false⟩⟩ :
        HttpBatchProcessor Nat).batchSize <
        [(9 : Nat)].length + List.length ([] : List Nat) +
          (([] : List Nat) ++ [1, 2, 3, 4, 5]).length) :=
  ⟨by decide, by decide,
   addTrace_bulk_flush_uncapped ⟨[9], [], [], 2, 5000, some ⟨10, false⟩⟩
     [1, 2, 3, 4, 5] 0 (by decide) (by decide)⟩

/-- C4 counterexample: five failed sends open the breaker at time 4 with
cooldown deadline 300004; a further failed send at time 300004 — the first
attempt after the cooldown has closed the breaker — leaves the breaker
Closed with failure counter 1, so the breaker does NOT re-open as a result
of that single failure. -/
theorem first_post_cooldown_failure_cex :
    ((ObservabilityHttpClient.runBatchSends ObservabilityHttpClient.new
        [(0, false), (1, false), (2, false), (3, false), (4, false),
         (300004, false)]).1.circuitBreakerOpen = false) ∧
    ((ObservabilityHttpClient.runBatchSends ObservabilityHttpClient.new
        [(0, false), (1, false), (2, false), (3, false), (4, false),
         (300004, false)]).1.failureCount = 1) := by
  decide

/-- C4 amended: if the first send attempt after the cooldown has closed
the breaker fails, the breaker does not re-open from that single failure —
the cooldown reset the counter to 0, so the failing attempt leaves the
breaker Closed with counter 1 (re-opening needs the threshold to be
reached again), while the POST is attempted. -/
theorem first_post_cooldown_failure_keeps_closed
    (c : ObservabilityHttpClient) (d now : Nat)
    (hO : c.circuitBreakerOpen = true) (hd : c.cooldownDeadline = some d)
    (hnow : d ≤ now) (hmax : 2 ≤ c.maxFailures) :
    (c.sendBatchAt now false).posted = true ∧
    (c.sendBatchAt now false).client.circuitBreakerOpen = false ∧
    (c.sendBatchAt now false).client.failureCount = 1 := by
  have hfc : c.fireCooldown now =
      { c with circuitBreakerOpen := false, failureCount := 0,
               cooldownDeadline := none } := by
    simp [ObservabilityHttpClient.fireCooldown, hd, hnow]
  rw [ObservabilityHttpClient.sendBatchAt, hfc]
  have hnot : ¬ c.maxFailures ≤ 0 + 1 := by omega
  simp [ObservabilityHttpClient.sendBatch,
    ObservabilityHttpClient.handleFailure, hnot]

/-- Witness for the amended C4 at a concrete just-opened client. -/
theorem first_post_cooldown_failure_keeps_closed_witness :
    (⟨3, 1000, true, 5, 5, some 4, some 300004⟩ :
        ObservabilityHttpClient).circuitBreakerOpen = true ∧
    (⟨3, 1000, true, 5, 5, some 4, some 300004⟩ :
        ObservabilityHttpClient).cooldownDeadline = some 300004 ∧
    300004 ≤ 300004 ∧
    2 ≤ (⟨3, 1000, true, 5, 5, some 4, some 300004⟩ :
        ObservabilityHttpClient).maxFailures ∧
    (((⟨3, 1000, true, 5, 5, some 4, some 300004⟩ :
        ObservabilityHttpClient).sendBatchAt 300004 false).posted = true ∧
      ((⟨3, 1000, true, 5, 5, some 4, some 300004⟩ :
        ObservabilityHttpClient).sendBatchAt 300004 false).client.circuitBreakerOpen = false ∧
      ((⟨3, 1000, true, 5, 5, some 4, some 300004⟩ :
        ObservabilityHttpClient).sendBatchAt 300004 false).client.failureCount = 1) :=
  ⟨by decide, by decide, by decide, by decide,
   first_post_cooldown_failure_keeps_closed
     ⟨3, 1000, true, 5, 5, some 4, some 300004⟩ 300004 300004
     (by decide) (by decide) (by decide) (by decide)⟩

/-- C8 counterexample: a flush of a one-record buffer whose send fails
invokes sendBatch exactly once — it is not re-invoked by any scheduler
retry loop for that batch. -/
theorem flush_no_retry_cex :
    ((⟨[7], [], [], 10, 5000, none⟩ : HttpBatchProcessor Nat).flush
        ObservabilityHttpClient.new 0 false).sendCalls = 1 ∧
    ¬ (2 ≤ ((⟨[7], [], [], 10, 5000, none⟩ : HttpBatchProcessor Nat).flush
        ObservabilityHttpClient.new 0 false).sendCalls) := by
  decide

/-- C8 amended: each sendBatch call performs at most one HTTP POST (no
internal retry loop), and flush invokes sendBatch at most once — exactly
once when the buffer is non-empty; the batch's records are cleared before
the send, so after a failed send the batch is dropped and its records are
not re-queued into the buffer, and the flush returns normally (no failure
is raised back to the producer whose append triggered it). -/
theorem flush_single_send_and_drop {α : Type} (s : HttpBatchProcessor α)
    (c : ObservabilityHttpClient) (now : Nat) (transportOk : Bool)
    (hne : ¬ (s.logs.isEmpty ∧ s.metrics.isEmpty ∧ s.traces.isEmpty)) :
    (s.flush c now transportOk).sendCalls = 1 ∧
    (s.flush c now transportOk).buf.logs = [] ∧
    (s.flush c now transportOk).buf.metrics = [] ∧
    (s.flush c now transportOk).buf.traces = [] ∧
    (s.flush c now transportOk).client = (c.sendBatch now transportOk).client := by
  rw [HttpBatchProcessor.flush, HttpBatchProcessor.flushCore_nonempty s hne]
  exact ⟨rfl, rfl, rfl, rfl, rfl⟩

/-- Witness for the amended C8 at a concrete one-record buffer with a
failing transport. -/
theorem flush_single_send_and_drop_witness :
    ¬ ((⟨[7], [], [], 10, 5000, some ⟨2, false⟩⟩ :
          HttpBatchProcessor Nat).logs.isEmpty ∧
       (⟨[7], [], [], 10, 5000, some ⟨2, false⟩⟩ :
          HttpBatchProcessor Nat).metrics.isEmpty ∧
       (⟨[7], [], [], 10, 5000, some ⟨2, false⟩⟩ :
          HttpBatchProcessor Nat).traces.isEmpty) ∧
    (((⟨[7], [], [], 10, 5000, some ⟨2, false⟩⟩ :
          HttpBatchProcessor Nat).flush
        ObservabilityHttpClient.new 9 false).sendCalls = 1 ∧
      ((⟨[7], [], [], 10, 5000, some ⟨2, false⟩⟩ :
          HttpBatchProcessor Nat).flush
        ObservabilityHttpClient.new 9 false).buf.logs = [] ∧
      ((⟨[7], [], [], 10, 5000, some ⟨2, false⟩⟩ :
          HttpBatchProcessor Nat).flush
        ObservabilityHttpClient.new 9 false).buf.metrics = [] ∧
      ((⟨[7], [], [], 10, 5000, some ⟨2, false⟩⟩ :
          HttpBatchProcessor Nat).flush
        ObservabilityHttpClient.new 9 false).buf.traces = [] ∧
      ((⟨[7], [], [], 10, 5000, some ⟨2, false⟩⟩ :
          HttpBatchProcessor Nat).flush
        ObservabilityHttpClient.new 9 false).client =
        (ObservabilityHttpClient.new.sendBatch 9 false).client) :=
  ⟨by decide,
   flush_single_send_and_drop ⟨[7], [], [], 10, 5000, some ⟨2, false⟩⟩
     ObservabilityHttpClient.new 9 false (by decide)⟩

namespace ObservabilityHttpClient

/-- Consecutive failing sends on a closed breaker with no pending cooldown,
too few to reach the threshold: the breaker stays Closed, no cooldown gets
scheduled, and the counter grows by one per failure. -/
lemma runFailing_below (evs : List Nat) :
    ∀ c : ObservabilityHttpClient, c.circuitBreakerOpen = false →
    c.cooldownDeadline = none →
    c.failureCount + evs.length < c.maxFailures →
    (runBatchSends c (evs.map fun t => (t, false))).1.circuitBreakerOpen = false ∧
    (runBatchSends c (evs.map fun t => (t, false))).1.failureCount =
      c.failureCount + evs.length ∧
    (runBatchSends c (evs.map fun t => (t, false))).1.cooldownDeadline = none ∧
    (runBatchSends c (evs.map fun t => (t, false))).1.maxFailures =
      c.maxFailures := by
  induction evs with
  | nil =>
    intro c hO hd hlt
    simp [runBatchSends, hO, hd]
  | cons t rest ih =>
    intro c hO hd hlt
    have hfire : c.fireCooldown t = c := by
      simp [fireCooldown, hd]
    have hnot : ¬ c.maxFailures ≤ c.failureCount + 1 := by
      simp at hlt
      omega
    have hsend : c.sendBatchAt t false =
        ⟨false, true,
         { c with failureCount := c.failureCount + 1,
                  lastFailureTime := some t }⟩ := by
      rw [sendBatchAt, hfire]
      simp [sendBatch, hO, handleFailure, hnot]
    have hih := ih { c with failureCount := c.failureCount + 1,
                            lastFailureTime := some t }
      (by simp [hO]) (by simp [hd])
      (by simp at hlt ⊢; omega)
    simp only [List.map_cons, runBatchSends, hsend] at hih ⊢
    refine ⟨hih.1, ?_, hih.2.2.1, hih.2.2.2⟩
    rw [hih.2.1]
    simp
    omega

/-- Consecutive failing sends on a closed breaker with no pending cooldown,
exactly enough to reach the threshold: the final failure opens the breaker
and schedules the cooldown. -/
lemma runFailing_opens (evs : List Nat) :
    ∀ c : ObservabilityHttpClient, c.circuitBreakerOpen = false →
    c.cooldownDeadline = none →
    c.failureCount + evs.length = c.maxFailures →
    1 ≤ evs.length →
    (runBatchSends c (evs.map fun t => (t, false))).1.circuitBreakerOpen = true := by
  induction evs with
  | nil =>
    intro c hO hd heq hlen
    simp at hlen
  | cons t rest ih =>
    intro c hO hd heq hlen
    have hfire : c.fireCooldown t = c := by
      simp [fireCooldown, hd]
    cases rest with
    | nil =>
      have hge : c.maxFailures ≤ c.failureCount + 1 := by
        simp at heq
        omega
      have hsend : c.sendBatchAt t false =
          ⟨false, true,
           { c with failureCount := c.failureCount + 1,
                    lastFailureTime := some t,
                    circuitBreakerOpen := true,
                    cooldownDeadline := some (t + cooldownMs) }⟩ := by
        rw [sendBatchAt, hfire]
        simp [sendBatch, hO, handleFailure, hge]
      simp [runBatchSends, hsend]
    | cons r rs =>
      have hnot : ¬ c.maxFailures ≤ c.failureCount + 1 := by
        simp at heq
        omega
      have hsend : c.sendBatchAt t false =
          ⟨false, true,
           { c with failureCount := c.failureCount + 1,
                    lastFailureTime := some t }⟩ := by
        rw [sendBatchAt, hfire]
        simp [sendBatch, hO, handleFailure, hnot]
      have hih := ih { c with failureCount := c.failureCount + 1,
                              lastFailureTime := some t }
        (by simp [hO]) (by simp [hd])
        (by simp at heq ⊢; omega) (by simp)
      simp only [List.map_cons, runBatchSends, hsend] at hih ⊢
      exact hih

end ObservabilityHttpClient

open ObservabilityHttpClient in
/-- C2: starting from a Closed breaker with a fresh failure counter and no
pending cooldown, fewer consecutive failed sends than the threshold leave
the breaker Closed; exactly maxFailures (default 5) consecutive failed
sends transition it to Open; and while Open every sendBatch call returns
failure immediately with no network attempt and no change to the client —
in particular no counter increment. -/
theorem breaker_opens_after_exactly_maxFailures
    (c : ObservabilityHttpClient) (evs : List Nat)
    (c2 : ObservabilityHttpClient) (now : Nat) (ok : Bool)
    (hO : c.circuitBreakerOpen = false) (hcnt : c.failureCount = 0)
    (hcd : c.cooldownDeadline = none) (hpos : 0 < c.maxFailures)
    (hO2 : c2.circuitBreakerOpen = true) :
    (evs.length < c.maxFailures →
      (runBatchSends c (evs.map fun t => (t, false))).1.circuitBreakerOpen
        = false) ∧
    (evs.length = c.maxFailures →
      (runBatchSends c (evs.map fun t => (t, false))).1.circuitBreakerOpen
        = true) ∧
    c2.sendBatch now ok = ⟨false, false, c2⟩ := by
  refine ⟨?_, ?_, ?_⟩
  · intro hlt
    exact (runFailing_below evs c hO hcd (by omega)).1
  · intro heq
    exact runFailing_opens evs c hO hcd (by omega) (by omega)
  · simp [sendBatch, hO2]

open ObservabilityHttpClient in
/-- Witness for C2: the fresh client, five failing sends. -/
theorem breaker_opens_after_exactly_maxFailures_witness :
    ObservabilityHttpClient.new.circuitBreakerOpen = false ∧
    ObservabilityHttpClient.new.failureCount = 0 ∧
    ObservabilityHttpClient.new.cooldownDeadline = none ∧
    0 < ObservabilityHttpClient.new.maxFailures ∧
    (⟨3, 1000, true, 5, 5, some 4, some 300004⟩ :
        ObservabilityHttpClient).circuitBreakerOpen = true ∧
    (([0, 1, 2, 3, 4].length < ObservabilityHttpClient.new.maxFailures →
      (runBatchSends ObservabilityHttpClient.new
        ([0, 1, 2, 3, 4].map fun t => (t, false))).1.circuitBreakerOpen
        = false) ∧
    ([0, 1, 2, 3, 4].length = ObservabilityHttpClient.new.maxFailures →
      (runBatchSends ObservabilityHttpClient.new
        ([0, 1, 2, 3, 4].map fun t => (t, false))).1.circuitBreakerOpen
        = true) ∧
    (⟨3, 1000, true, 5, 5, some 4, some 300004⟩ :
        ObservabilityHttpClient).sendBatch 7 true =
      ⟨false, false, ⟨3, 1000, true, 5, 5, some 4, some 300004⟩⟩) :=
  ⟨by decide, by decide, by decide, by decide, by decide,
   breaker_opens_after_exactly_maxFailures ObservabilityHttpClient.new
     [0, 1, 2, 3, 4] ⟨3, 1000, true, 5, 5, some 4, some 300004⟩ 7 true
     (by decide) (by decide) (by decide) (by decide) (by decide)⟩

open ObservabilityHttpClient in
/-- C3: an Open breaker stays Open across a send step unless the cooldown
deadline has elapsed (no pending cooldown, or a deadline still in the
future, keeps it Open); the cooldown callback itself closes the breaker
and resets the failure counter to 0; a send attempted at or after the
deadline is evaluated with the breaker Closed (the POST is attempted); and
the deadline the opening failure schedules is its time plus the cooldown
duration, 300000 ms. -/
theorem breaker_closes_only_via_cooldown
    (c : ObservabilityHttpClient) (now t d : Nat) (ok : Bool) :
    (c.circuitBreakerOpen = true → c.cooldownDeadline = none →
      (c.sendBatchAt now ok).client.circuitBreakerOpen = true) ∧
    (c.circuitBreakerOpen = true → c.cooldownDeadline = some d → now < d →
      (c.sendBatchAt now ok).client.circuitBreakerOpen = true) ∧
    (c.cooldownDeadline = some d → d ≤ now →
      (c.fireCooldown now).circuitBreakerOpen = false ∧
      (c.fireCooldown now).failureCount = 0 ∧
      (c.fireCooldown now).cooldownDeadline = none) ∧
    (c.cooldownDeadline = some d → d ≤ now →
      (c.sendBatchAt now ok).posted = true) ∧
    (c.circuitBreakerOpen = false →
      (c.handleFailure t).circuitBreakerOpen = true →
      (c.handleFailure t).cooldownDeadline = some (t + cooldownMs)) := by
  refine ⟨?_, ?_, ?_, ?_, ?_⟩
  · intro hO hd
    have hfire : c.fireCooldown now = c := by
      simp [fireCooldown, hd]
    rw [sendBatchAt, hfire]
    simp [sendBatch, hO]
  · intro hO hd hlt
    have hfire : c.fireCooldown now = c := by
      simp [fireCooldown, hd, Nat.not_le.mpr hlt]
    rw [sendBatchAt, hfire]
    simp [sendBatch, hO]
  · intro hd hle
    simp [fireCooldown, hd, hle]
  · intro hd hle
    have hfire : c.fireCooldown now =
        { c with circuitBreakerOpen := false, failureCount := 0,
                 cooldownDeadline := none } := by
      simp [fireCooldown, hd, hle]
    rw [sendBatchAt, hfire]
    cases ok <;> simp [sendBatch]
  · intro hO hopen2
    by_cases hc : c.maxFailures ≤ c.failureCount + 1
    · simp [handleFailure, hc]
    · rw [handleFailure] at hopen2 ⊢
      simp [hc] at hopen2
      rw [hopen2] at hO
      cases hO

open ObservabilityHttpClient in
/-- Witness for C3: a client opened at time 4 (deadline 300004), examined
at time 300004; the cooldown conjuncts are discharged concretely. -/
theorem breaker_closes_only_via_cooldown_witness :
    ((⟨3, 1000, true, 5, 5, some 4, some 300004⟩ :
        ObservabilityHttpClient).cooldownDeadline = some 300004) ∧
    ((300004 : Nat) ≤ 300004) ∧
    (((⟨3, 1000, true, 5, 5, some 4, some 300004⟩ :
        ObservabilityHttpClient).fireCooldown 300004).circuitBreakerOpen = false ∧
     ((⟨3, 1000, true, 5, 5, some 4, some 300004⟩ :
        ObservabilityHttpClient).fireCooldown 300004).failureCount = 0 ∧
     ((⟨3, 1000, true, 5, 5, some 4, some 300004⟩ :
        ObservabilityHttpClient).fireCooldown 300004).cooldownDeadline = none) ∧
    (((⟨3, 1000, true, 5, 5, some 4, some 300004⟩ :
        ObservabilityHttpClient).sendBatchAt 300004 true).posted = true) :=
  ⟨by decide, by decide,
   (breaker_closes_only_via_cooldown
     ⟨3, 1000, true, 5, 5, some 4, some 300004⟩ 300004 0 300004 true).2.2.1
     (by decide) (by decide),
   (breaker_closes_only_via_cooldown
     ⟨3, 1000, true, 5, 5, some 4, some 300004⟩ 300004 0 300004 true).2.2.2.1
     (by decide) (by decide)⟩

namespace HttpBatchProcessor

/-- One append on a below-threshold buffer with no timer: the records are
appended and a single timer is started for `now + batchTimeout`. -/
lemma applyOp_startTimer {α : Type} (s : HttpBatchProcessor α) (o : BufOp α)
    (t : Nat) (h1 : s.timeout = none)
    (h2 : s.totalCount + o.opCount < s.batchSize) :
    s.applyOp o t =
      ({ s with logs := s.logs ++ o.opLogs, metrics := s.metrics ++ o.opMetrics,
                traces := s.traces ++ o.opTraces,
                timeout := some ⟨t + s.batchTimeout, false⟩ }, none) := by
  cases o with
  | addLog r =>
    have hc : ({ s with logs := s.logs ++ [r] } :
        HttpBatchProcessor α).totalCount <
        ({ s with logs := s.logs ++ [r] } : HttpBatchProcessor α).batchSize := by
      simp [totalCount, BufOp.opCount, BufOp.opLogs, BufOp.opMetrics,
        BufOp.opTraces] at h2 ⊢
      omega
    rw [applyOp, addLog, checkBatchSize_startTimer _ t hc h1]
    simp [BufOp.opLogs, BufOp.opMetrics, BufOp.opTraces]
  | addMetric r =>
    have hc : ({ s with metrics := s.metrics ++ [r] } :
        HttpBatchProcessor α).totalCount <
        ({ s with metrics := s.metrics ++ [r] } : HttpBatchProcessor α).batchSize := by
      simp [totalCount, BufOp.opCount, BufOp.opLogs, BufOp.opMetrics,
        BufOp.opTraces] at h2 ⊢
      omega
    rw [applyOp, addMetric, checkBatchSize_startTimer _ t hc h1]
    simp [BufOp.opLogs, BufOp.opMetrics, BufOp.opTraces]
  | addTrace item =>
    cases item with
    | inl r =>
      have hc : ({ s with traces := s.traces ++ [r] } :
          HttpBatchProcessor α).totalCount <
          ({ s with traces := s.traces ++ [r] } : HttpBatchProcessor α).batchSize := by
        simp [totalCount, BufOp.opCount, BufOp.opLogs, BufOp.opMetrics,
          BufOp.opTraces] at h2 ⊢
        omega
      rw [applyOp, addTrace, checkBatchSize_startTimer _ t hc h1]
      simp [BufOp.opLogs, BufOp.opMetrics, BufOp.opTraces]
    | inr rs =>
      have hc : ({ s with traces := s.traces ++ rs } :
          HttpBatchProcessor α).totalCount <
          ({ s with traces := s.traces ++ rs } : HttpBatchProcessor α).batchSize := by
        simp [totalCount, BufOp.opCount, BufOp.opLogs, BufOp.opMetrics,
          BufOp.opTraces] at h2 ⊢
        omega
      rw [applyOp, addTrace, checkBatchSize_startTimer _ t hc h1]
      simp [BufOp.opLogs, BufOp.opMetrics, BufOp.opTraces]

end HttpBatchProcessor

lemma opsCount_cons {α : Type} (o : BufOp α) (t : Nat)
    (rest : List (BufOp α × Nat)) :
    opsCount ((o, t) :: rest) = o.opCount + opsCount rest := by
  simp [opsCount, allLogs, allMetrics, allTraces, BufOp.opCount,
    List.length_append]
  omega

/-- Appends on a buffer with a pending timer handle that together stay
below the threshold: no flush is emitted, the records accumulate in order,
and the timer field is never replaced. -/
lemma runOps_pending {α : Type} (ops : List (BufOp α × Nat)) :
    ∀ s : HttpBatchProcessor α, s.timeout.isSome = true →
    s.totalCount + opsCount ops < s.batchSize →
    HttpBatchProcessor.runOps s ops =
      ({ s with logs := s.logs ++ allLogs ops,
                metrics := s.metrics ++ allMetrics ops,
                traces := s.traces ++ allTraces ops }, []) := by
  induction ops with
  | nil =>
    intro s h1 h2
    simp [HttpBatchProcessor.runOps, allLogs, allMetrics, allTraces]
  | cons p rest ih =>
    intro s h1 h2
    obtain ⟨o, t⟩ := p
    rw [opsCount_cons] at h2
    have hstep := HttpBatchProcessor.applyOp_pending s o t h1 (by omega)
    have hih := ih
      ({ s with logs := s.logs ++ o.opLogs,
                metrics := s.metrics ++ o.opMetrics,
                traces := s.traces ++ o.opTraces })
      (by simpa using h1)
      (by
        simp [HttpBatchProcessor.totalCount, BufOp.opCount,
          List.length_append] at h2 ⊢
        omega)
    simp only [HttpBatchProcessor.runOps, hstep, hih, Option.toList_none,
      List.nil_append, allLogs, allMetrics, allTraces]
    simp [List.append_assoc]

open HttpBatchProcessor in
/-- C1: over any sequence of appends from a fresh buffer, every appended
record ends up in exactly one handed-out batch (or the final residue), per
sequence and in insertion order; and on any below-threshold buffer a
single append flushes exactly when it takes the combined count to (or
past) maxBatchSize, the flushed batch being precisely the buffered records
with the new ones appended, leaving all three sequences empty — while an
append that stays below the threshold emits nothing and only appends. -/
theorem buffer_flush_trigger_and_content {α : Type} (B W : Nat)
    (ops : List (BufOp α × Nat)) (s : HttpBatchProcessor α) (o : BufOp α)
    (t : Nat) (hB : 1 ≤ s.batchSize) (hwf : s.totalCount < s.batchSize) :
    (batchLogs (runOps (new B W : HttpBatchProcessor α) ops).2 ++
      (runOps (new B W : HttpBatchProcessor α) ops).1.logs = allLogs ops) ∧
    (batchMetrics (runOps (new B W : HttpBatchProcessor α) ops).2 ++
      (runOps (new B W : HttpBatchProcessor α) ops).1.metrics = allMetrics ops) ∧
    (batchTraces (runOps (new B W : HttpBatchProcessor α) ops).2 ++
      (runOps (new B W : HttpBatchProcessor α) ops).1.traces = allTraces ops) ∧
    ((s.applyOp o t).2.isSome = true ↔
      s.batchSize ≤ s.totalCount + o.opCount) ∧
    (s.batchSize ≤ s.totalCount + o.opCount →
      s.applyOp o t =
        (⟨[], [], [], s.batchSize, s.batchTimeout, none⟩,
         some ⟨s.logs ++ o.opLogs, s.metrics ++ o.opMetrics,
               s.traces ++ o.opTraces⟩)) ∧
    (s.totalCount + o.opCount < s.batchSize →
      (s.applyOp o t).2 = none ∧
      (s.applyOp o t).1.logs = s.logs ++ o.opLogs ∧
      (s.applyOp o t).1.metrics = s.metrics ++ o.opMetrics ∧
      (s.applyOp o t).1.traces = s.traces ++ o.opTraces) := by
  obtain ⟨r1, r2, r3⟩ := runOps_conserve ops (new B W : HttpBatchProcessor α)
  refine ⟨by simpa [new] using r1, by simpa [new] using r2,
    by simpa [new] using r3, ?_, ?_, ?_⟩
  · constructor
    · intro hsome
      by_contra hlt
      rw [Nat.not_le] at hlt
      rw [(applyOp_below s o t hlt).1] at hsome
      cases hsome
    · intro hge
      rw [applyOp_flush s o t hB hge]
      rfl
  · intro hge
    exact applyOp_flush s o t hB hge
  · intro hlt
    exact applyOp_below s o t hlt

open HttpBatchProcessor in
/-- Witness for C1: threshold 2, a three-append run, and a one-record
buffer whose next append reaches the threshold. -/
theorem buffer_flush_trigger_and_content_witness :
    1 ≤ (⟨[5], [], [], 2, 9, none⟩ : HttpBatchProcessor Nat).batchSize ∧
    (⟨[5], [], [], 2, 9, none⟩ : HttpBatchProcessor Nat).totalCount <
      (⟨[5], [], [], 2, 9, none⟩ : HttpBatchProcessor Nat).batchSize ∧
    (batchLogs (runOps (new 3 7 : HttpBatchProcessor Nat)
        [(BufOp.addLog 1, 0), (BufOp.addMetric 2, 0),
         (BufOp.addLog 3, 1), (BufOp.addTrace (Sum.inl 4), 1)]).2 ++
      (runOps (new 3 7 : HttpBatchProcessor Nat)
        [(BufOp.addLog 1, 0), (BufOp.addMetric 2, 0),
         (BufOp.addLog 3, 1), (BufOp.addTrace (Sum.inl 4), 1)]).1.logs =
      allLogs [(BufOp.addLog 1, 0), (BufOp.addMetric 2, 0),
         (BufOp.addLog 3, 1), (BufOp.addTrace (Sum.inl 4), 1)]) ∧
    (batchMetrics (runOps (new 3 7 : HttpBatchProcessor Nat)
        [(BufOp.addLog 1, 0), (BufOp.addMetric 2, 0),
         (BufOp.addLog 3, 1), (BufOp.addTrace (Sum.inl 4), 1)]).2 ++
      (runOps (new 3 7 : HttpBatchProcessor Nat)
        [(BufOp.addLog 1, 0), (BufOp.addMetric 2, 0),
         (BufOp.addLog 3, 1), (BufOp.addTrace (Sum.inl 4), 1)]).1.metrics =
      allMetrics [(BufOp.addLog 1, 0), (BufOp.addMetric 2, 0),
         (BufOp.addLog 3, 1), (BufOp.addTrace (Sum.inl 4), 1)]) ∧
    (batchTraces (runOps (new 3 7 : HttpBatchProcessor Nat)
        [(BufOp.addLog 1, 0), (BufOp.addMetric 2, 0),
         (BufOp.addLog 3, 1), (BufOp.addTrace (Sum.inl 4), 1)]).2 ++
      (runOps (new 3 7 : HttpBatchProcessor Nat)
        [(BufOp.addLog 1, 0), (BufOp.addMetric 2, 0),
         (BufOp.addLog 3, 1), (BufOp.addTrace (Sum.inl 4), 1)]).1.traces =
      allTraces [(BufOp.addLog 1, 0), (BufOp.addMetric 2, 0),
         (BufOp.addLog 3, 1), (BufOp.addTrace (Sum.inl 4), 1)]) ∧
    (((⟨[5], [], [], 2, 9, none⟩ : HttpBatchProcessor Nat).applyOp
        (BufOp.addLog 6) 4).2.isSome = true ↔
      (⟨[5], [], [], 2, 9, none⟩ : HttpBatchProcessor Nat).batchSize ≤
        (⟨[5], [], [], 2, 9, none⟩ : HttpBatchProcessor Nat).totalCount +
          (BufOp.addLog 6).opCount) ∧
    ((⟨[5], [], [], 2, 9, none⟩ : HttpBatchProcessor Nat).batchSize ≤
        (⟨[5], [], [], 2, 9, none⟩ : HttpBatchProcessor Nat).totalCount +
          (BufOp.addLog 6).opCount →
      (⟨[5], [], [], 2, 9, none⟩ : HttpBatchProcessor Nat).applyOp
          (BufOp.addLog 6) 4 =
        (⟨[], [], [], 2, 9, none⟩,
         some ⟨[5] ++ (BufOp.addLog 6).opLogs,
               [] ++ (BufOp.addLog 6).opMetrics,
               [] ++ (BufOp.addLog 6).opTraces⟩)) ∧
    ((⟨[5], [], [], 2, 9, none⟩ : HttpBatchProcessor Nat).totalCount +
        (BufOp.addLog 6).opCount <
        (⟨[5], [], [], 2, 9, none⟩ : HttpBatchProcessor Nat).batchSize →
      ((⟨[5], [], [], 2, 9, none⟩ : HttpBatchProcessor Nat).applyOp
          (BufOp.addLog 6) 4).2 = none ∧
      ((⟨[5], [], [], 2, 9, none⟩ : HttpBatchProcessor Nat).applyOp
          (BufOp.addLog 6) 4).1.logs = [5] ++ (BufOp.addLog 6).opLogs ∧
      ((⟨[5], [], [], 2, 9, none⟩ : HttpBatchProcessor Nat).applyOp
          (BufOp.addLog 6) 4).1.metrics = [] ++ (BufOp.addLog 6).opMetrics ∧
      ((⟨[5], [], [], 2, 9, none⟩ : HttpBatchProcessor Nat).applyOp
          (BufOp.addLog 6) 4).1.traces = [] ++ (BufOp.addLog 6).opTraces) :=
  ⟨by decide, by decide,
   buffer_flush_trigger_and_content 3 7
     [(BufOp.addLog 1, 0), (BufOp.addMetric 2, 0),
      (BufOp.addLog 3, 1), (BufOp.addTrace (Sum.inl 4), 1)]
     ⟨[5], [], [], 2, 9, none⟩ (BufOp.addLog 6) 4 (by decide) (by decide)⟩

open HttpBatchProcessor in
/-- C7: if appends totalling fewer records than maxBatchSize (but at least
one) arrive at a fresh buffer and no further append occurs, no flush is
emitted during the appends; the single timer — started by the first append
and never replaced by the later ones — is scheduled for that first
append's time plus batchTimeout, and when it fires the flushed batch
contains exactly the appended records, in order, leaving the buffer
empty. -/
theorem timer_flush_of_small_batch {α : Type} (B W t0 : Nat)
    (o0 : BufOp α) (rest : List (BufOp α × Nat))
    (hcnt : opsCount ((o0, t0) :: rest) < B)
    (hpos : 0 < opsCount ((o0, t0) :: rest)) :
    (runOps (new B W : HttpBatchProcessor α) ((o0, t0) :: rest)).2 = [] ∧
    (runOps (new B W : HttpBatchProcessor α) ((o0, t0) :: rest)).1.timeout =
      some ⟨t0 + W, false⟩ ∧
    timerFireStep
        (runOps (new B W : HttpBatchProcessor α) ((o0, t0) :: rest)).1
        (t0 + W) =
      (⟨[], [], [], B, W, none⟩,
       some ⟨allLogs ((o0, t0) :: rest), allMetrics ((o0, t0) :: rest),
             allTraces ((o0, t0) :: rest)⟩) := by
  rw [opsCount_cons] at hcnt hpos
  have h1 : (new B W : HttpBatchProcessor α).applyOp o0 t0 =
      (⟨o0.opLogs, o0.opMetrics, o0.opTraces, B, W,
        some ⟨t0 + W, false⟩⟩, none) := by
    have h := applyOp_startTimer (new B W : HttpBatchProcessor α) o0 t0 rfl
      (by
        show 0 + o0.opCount < B
        omega)
    simpa [new] using h
  have h2 := runOps_pending rest
    (⟨o0.opLogs, o0.opMetrics, o0.opTraces, B, W, some ⟨t0 + W, false⟩⟩ :
      HttpBatchProcessor α)
    rfl
    (by
      show o0.opCount + opsCount rest < B
      omega)
  have hrun : runOps (new B W : HttpBatchProcessor α) ((o0, t0) :: rest) =
      (⟨o0.opLogs ++ allLogs rest, o0.opMetrics ++ allMetrics rest,
        o0.opTraces ++ allTraces rest, B, W, some ⟨t0 + W, false⟩⟩, []) := by
    simp only [runOps, h1, h2]
    simp
  have hfc := flushCore_of_count_pos
    (⟨o0.opLogs ++ allLogs rest, o0.opMetrics ++ allMetrics rest,
      o0.opTraces ++ allTraces rest, B, W, some ⟨t0 + W, true⟩⟩ :
      HttpBatchProcessor α)
    (by
      show 0 < (o0.opLogs ++ allLogs rest).length +
        (o0.opMetrics ++ allMetrics rest).length +
        (o0.opTraces ++ allTraces rest).length
      simp only [List.length_append]
      simp [opsCount, BufOp.opCount] at hpos
      omega)
  refine ⟨by rw [hrun], by rw [hrun], ?_⟩
  rw [hrun]
  simp only [timerFireStep]
  rw [if_pos (⟨trivial, trivial⟩ : True ∧ True), hfc]
  simp [allLogs, allMetrics, allTraces]

open HttpBatchProcessor in
/-- Witness for C7: threshold 5, wait 100, a log appended at time 10 and
two traces appended at time 11; the timer fires at 110. -/
theorem timer_flush_of_small_batch_witness :
    opsCount [((BufOp.addLog 1 : BufOp Nat), 10),
      (BufOp.addTrace (Sum.inr [2, 3]), 11)] < 5 ∧
    0 < opsCount [((BufOp.addLog 1 : BufOp Nat), 10),
      (BufOp.addTrace (Sum.inr [2, 3]), 11)] ∧
    ((runOps (new 5 100 : HttpBatchProcessor Nat)
        [(BufOp.addLog 1, 10), (BufOp.addTrace (Sum.inr [2, 3]), 11)]).2
        = [] ∧
      (runOps (new 5 100 : HttpBatchProcessor Nat)
        [(BufOp.addLog 1, 10),
          (BufOp.addTrace (Sum.inr [2, 3]), 11)]).1.timeout =
        some ⟨10 + 100, false⟩ ∧
      timerFireStep
          (runOps (new 5 100 : HttpBatchProcessor Nat)
            [(BufOp.addLog 1, 10),
             (BufOp.addTrace (Sum.inr [2, 3]), 11)]).1
          (10 + 100) =
        (⟨[], [], [], 5, 100, none⟩,
         some ⟨allLogs [(BufOp.addLog 1, 10),
                 (BufOp.addTrace (Sum.inr [2, 3]), 11)],
               allMetrics [(BufOp.addLog 1, 10),
                 (BufOp.addTrace (Sum.inr [2, 3]), 11)],
               allTraces [(BufOp.addLog 1, 10),
                 (BufOp.addTrace (Sum.inr [2, 3]), 11)]⟩)) :=
  ⟨by decide, by decide,
   timer_flush_of_small_batch 5 100 10 (BufOp.addLog 1)
     [(BufOp.addTrace (Sum.inr [2, 3]), 11)] (by decide) (by decide)⟩
